import Mathlib

/-!
Shallow embedding of the event-capture and interception engine of the
playwright-server repository: the `ActivityRecorder` (event log + network tap,
src activity-recorder module) and the `InterceptManager`
(src/intercept-manager.ts), together with proofs about the claims of the
specification.

Conventions of the embedding:
- JS `number` timestamps (`Date.now()`) are modelled as `Int`.
- A JS `Map<string, T>` is modelled as an association list kept in insertion
  order; `set` replaces in place, `get` finds the first (unique) key.
- A plain JS object used as a string-keyed record is modelled the same way.
- JS truthiness tests on `number | undefined` and `string | undefined`
  (`startTime ?`, `options.id ||`, `if (rule.method)`, `if (response.proxyUrl)`)
  are modelled explicitly: `none`, `some 0` and `some ""` are falsy.
- Asynchronous effects (the real `fetch`, body capture) are passed in as
  explicit arguments, so every operation is a pure state transition.
-/

/-- Kinds of events stored in the log (type `ActivityType` of types.ts). -/
inductive ActivityType where
  | networkRequest
  | networkResponse
  | networkFailed
  | console
  | pageError
  | navigation
  | dialog
  | download
deriving DecidableEq, Repr

/-- Payload of an event (field `data: unknown` of `ActivityEntry`; only the
shapes actually produced by the recorder handlers are represented). -/
inductive EntryData where
  | request (method url resourceType : String) (postData : Option String)
  | response (method url resourceType : String) (status : Nat)
      (statusText : String) (duration : Option Int) (responseBody : Option String)
  | failed (method url resourceType : String) (failure : Option String)
  | consoleMsg (messageType text : String)
  | pageErr (message : String) (stack : Option String)
  | nav (url eventType : String)
  | dialogEntry (dialogType message : String)
deriving DecidableEq, Repr

/-- One stored event (interface `ActivityEntry` of types.ts). -/
structure ActivityEntry where
  id : Nat
  timestamp : Int
  type : ActivityType
  data : EntryData
deriving DecidableEq, Repr

/-- Query filter (interface `ActivityFilter` of types.ts). -/
structure ActivityFilter where
  types : Option (List ActivityType) := none
  since : Option Nat := none
  limit : Option Nat := none

/-- Result shape of `ActivityRecorder.getEntries`. -/
structure QueryResult where
  entries : List ActivityEntry
  watermark : Nat
  hasMore : Bool
deriving DecidableEq, Repr

/-- Result shape of `ActivityRecorder.getState` (interface `RecordingState`). -/
structure RecordingState where
  enabled : Bool
  autoStart : Bool
  captureNetworkBodies : Bool
  entryCount : Nat
  watermark : Nat
deriving DecidableEq, Repr

/-- Result shape of `ActivityRecorder.getSummary` (interface `ActivitySummary`);
`byType` models the JS record keyed by activity type. -/
structure ActivitySummary where
  totalEntries : Nat
  currentWatermark : Nat
  byType : ActivityType → Nat
  oldestTimestamp : Option Int
  newestTimestamp : Option Int

/-- Mutable fields of the `ActivityRecorder` class. -/
structure RecorderState where
  entries : List ActivityEntry
  nextId : Nat
  enabled : Bool
  autoStart : Bool
  captureNetworkBodies : Bool
  requestTimings : List (String × Int)
deriving DecidableEq, Repr

/-- Field initializers of the `ActivityRecorder` class. -/
def initialRecorder : RecorderState :=
  { entries := [], nextId := 1, enabled := false, autoStart := true,
    captureNetworkBodies := false, requestTimings := [] }

/-- The cap `MAX_ENTRIES = 10000`. -/
def MAX_ENTRIES : Nat := 10000

/-- JS `Map.prototype.set`: replace in place if the key exists, else append. -/
def jsMapSet {α : Type} (m : List (String × α)) (k : String) (v : α) :
    List (String × α) :=
  if m.any (fun p => p.1 == k) then
    m.map (fun p => if p.1 == k then (k, v) else p)
  else
    m ++ [(k, v)]

/-- JS `Map.prototype.get`: first (unique) binding of the key, if any. -/
def jsMapGet {α : Type} (m : List (String × α)) (k : String) : Option α :=
  (m.find? (fun p => p.1 == k)).map (fun p => p.2)

/-- Method `ActivityRecorder.addEntry`: no-op when disabled, otherwise assign
`nextId`, append, and trim to the last `MAX_ENTRIES` entries
(`entries.slice(-MAX_ENTRIES)`). -/
def addEntry (s : RecorderState) (type : ActivityType) (data : EntryData)
    (now : Int) : RecorderState :=
  if !s.enabled then s
  else
    let entry : ActivityEntry :=
      { id := s.nextId, timestamp := now, type := type, data := data }
    let entries := s.entries ++ [entry]
    let entries :=
      if MAX_ENTRIES < entries.length then entries.drop (entries.length - MAX_ENTRIES)
      else entries
    { s with entries := entries, nextId := s.nextId + 1 }

/-- Method `ActivityRecorder.handleRequest`: stores the start time under the
key `url + method` unconditionally, then records a network-request event
(the enabled check happens only inside `addEntry`). -/
def handleRequest (s : RecorderState) (url method resourceType : String)
    (postData : Option String) (now : Int) : RecorderState :=
  let key := url ++ method
  let s := { s with requestTimings := jsMapSet s.requestTimings key now }
  addEntry s ActivityType.networkRequest
    (EntryData.request method url resourceType postData) now

/-- Method `ActivityRecorder.handleResponse`: looks up (without removing) the
start time; `startTime ? Date.now() - startTime : undefined` is a JS
truthiness test, so a stored start time of `0` yields no duration.
`capturedBody` stands for the awaited `captureResponseBody` result, used only
when body capture is on. -/
def handleResponse (s : RecorderState) (url method resourceType : String)
    (status : Nat) (statusText : String) (capturedBody : String) (now : Int) :
    RecorderState :=
  if !s.enabled then s
  else
    let key := url ++ method
    let startTime := jsMapGet s.requestTimings key
    let duration : Option Int :=
      match startTime with
      | some t => if t = 0 then none else some (now - t)
      | none => none
    let responseBody : Option String :=
      if s.captureNetworkBodies then some capturedBody else none
    addEntry s ActivityType.networkResponse
      (EntryData.response method url resourceType status statusText duration responseBody) now

/-- Method `ActivityRecorder.handleRequestFailed`: records a network-failed
event; the timing table is not touched. -/
def handleRequestFailed (s : RecorderState) (url method resourceType : String)
    (failure : Option String) (now : Int) : RecorderState :=
  addEntry s ActivityType.networkFailed
    (EntryData.failed method url resourceType failure) now

/-- Method `ActivityRecorder.start`. -/
def startRecorder (s : RecorderState) (captureNetworkBodies : Bool) :
    RecorderState :=
  { s with enabled := true, captureNetworkBodies := captureNetworkBodies }

/-- Method `ActivityRecorder.stop`: disables recording, returns the count. -/
def stopRecorder (s : RecorderState) : RecorderState × Nat :=
  ({ s with enabled := false }, s.entries.length)

/-- Method `ActivityRecorder.clear`: empties entries and the timing table,
returns the removed count; `nextId` is untouched. -/
def clearRecorder (s : RecorderState) : RecorderState × Nat :=
  ({ s with entries := [], requestTimings := [] }, s.entries.length)

/-- Method `ActivityRecorder.setAutoStart`. -/
def setAutoStart (s : RecorderState) (enabled : Bool) : RecorderState :=
  { s with autoStart := enabled }

/-- State effect of `ActivityRecorder.attach`: registering the page listeners
has no effect on the recorder state; the only state change is the auto-start
branch at the end. -/
def attachRecorder (s : RecorderState) : RecorderState :=
  if s.autoStart then { s with enabled := true } else s

/-- Method `ActivityRecorder.getState`. -/
def getState (s : RecorderState) : RecordingState :=
  { enabled := s.enabled, autoStart := s.autoStart,
    captureNetworkBodies := s.captureNetworkBodies,
    entryCount := s.entries.length, watermark := s.nextId - 1 }

/-- Method `ActivityRecorder.getEntries`: filter by `since` (strict), then by
types (only when a non-empty list is given), compute `hasMore`, truncate to
`limit` (default 1000), and report the current watermark. -/
def getEntries (s : RecorderState) (filter : ActivityFilter) : QueryResult :=
  let filtered := s.entries
  let filtered :=
    match filter.since with
    | some since => filtered.filter (fun (e : ActivityEntry) => decide (since < e.id))
    | none => filtered
  let filtered :=
    match filter.types with
    | some ts =>
        if 0 < ts.length then
          filtered.filter (fun (e : ActivityEntry) => ts.contains e.type)
        else filtered
    | none => filtered
  let limit := filter.limit.getD 1000
  { entries := filtered.take limit,
    watermark := s.nextId - 1,
    hasMore := decide (limit < filtered.length) }

/-- Method `ActivityRecorder.getSummary`: counts by type and min/max
timestamps, folded over the retained entries exactly as the source loop does. -/
def getSummary (s : RecorderState) : ActivitySummary :=
  let byType := s.entries.foldl
    (fun acc e => fun t => if t = e.type then acc t + 1 else acc t)
    (fun _ => 0)
  let oldestTimestamp := s.entries.foldl
    (fun acc e =>
      match acc with
      | none => some e.timestamp
      | some o => if e.timestamp < o then some e.timestamp else some o)
    none
  let newestTimestamp := s.entries.foldl
    (fun acc e =>
      match acc with
      | none => some e.timestamp
      | some o => if o < e.timestamp then some e.timestamp else some o)
    none
  { totalEntries := s.entries.length, currentWatermark := s.nextId - 1,
    byType := byType, oldestTimestamp := oldestTimestamp,
    newestTimestamp := newestTimestamp }

/-- One externally triggered operation on the recorder.  The console,
page-error, navigation and dialog handlers all funnel straight into
`addEntry` and are represented, like any direct recording, by `record`. -/
inductive RecOp where
  | record (type : ActivityType) (data : EntryData) (now : Int)
  | request (url method resourceType : String) (postData : Option String) (now : Int)
  | response (url method resourceType : String) (status : Nat)
      (statusText : String) (capturedBody : String) (now : Int)
  | requestFailed (url method resourceType : String) (failure : Option String) (now : Int)
  | start (captureNetworkBodies : Bool)
  | stop
  | clear
  | setAuto (enabled : Bool)
  | attach

/-- Interpretation of one operation as a state transition. -/
def applyRecOp (s : RecorderState) : RecOp → RecorderState
  | RecOp.record type data now => addEntry s type data now
  | RecOp.request url method rt pd now => handleRequest s url method rt pd now
  | RecOp.response url method rt st stx body now =>
      handleResponse s url method rt st stx body now
  | RecOp.requestFailed url method rt f now => handleRequestFailed s url method rt f now
  | RecOp.start cb => startRecorder s cb
  | RecOp.stop => (stopRecorder s).1
  | RecOp.clear => (clearRecorder s).1
  | RecOp.setAuto b => setAutoStart s b
  | RecOp.attach => attachRecorder s

/-- Run a sequence of operations from a state. -/
def runRecOps (s : RecorderState) (ops : List RecOp) : RecorderState :=
  ops.foldl applyRecOp s

/-- Trace of the event ids consumed while running `ops` from `s` (each
operation consumes the ids between its pre- and post-`nextId`). -/
def assignedIds : RecorderState → List RecOp → List Nat
  | _, [] => []
  | s, op :: ops =>
      let s' := applyRecOp s op
      List.range' s.nextId (s'.nextId - s.nextId) ++ assignedIds s' ops

/-- Configured response of a rule (interface `InterceptResponse` of types.ts). -/
structure InterceptResponse where
  status : Option Nat := none
  body : Option String := none
  headers : Option (List (String × String)) := none
  abort : Option Bool := none
  proxyUrl : Option String := none
deriving DecidableEq, Repr

/-- One interception rule (interface `InterceptRule` of types.ts). -/
structure InterceptRule where
  id : String
  urlPattern : String
  method : Option String
  response : InterceptResponse
  delay : Nat
  enabled : Bool
  matchCount : Nat
deriving DecidableEq, Repr

/-- Options accepted by `addRule` (interface `AddInterceptRuleOptions`). -/
structure AddInterceptRuleOptions where
  id : Option String := none
  urlPattern : String
  method : Option String := none
  response : InterceptResponse
  delay : Option Nat := none
  enabled : Option Bool := none

/-- Result shape of `InterceptManager.getStatus` (interface `InterceptStatus`). -/
structure InterceptStatus where
  enabled : Bool
  ruleCount : Nat
  totalMatches : Nat
deriving DecidableEq, Repr

/-- Mutable fields of the `InterceptManager` class.  The JS
`Map<string, InterceptRule>` iterates its values in insertion order, so it is
modelled as the list of rules in insertion order (ids are kept unique by
`addRule`). -/
structure InterceptState where
  rules : List InterceptRule
  enabled : Bool
  nextId : Nat
deriving DecidableEq, Repr

/-- Field initializers of the `InterceptManager` class. -/
def initialIntercept : InterceptState :=
  { rules := [], enabled := true, nextId := 1 }

/-- ASCII model of JS `String.prototype.toUpperCase`. -/
def upperStr (s : String) : String := s.map Char.toUpper

/-- The skip test `rule.method && rule.method.toUpperCase() !== method.toUpperCase()`
of `findMatchingRule`: JS truthiness makes an absent or empty method filter
never skip. -/
def methodBlocks (ruleMethod : Option String) (method : String) : Bool :=
  match ruleMethod with
  | some m => !(m == "") && !(upperStr m == upperStr method)
  | none => false

/-- The condition under which a rule wins in `findMatchingRule`: enabled, URL
pattern matches (the regex engine is the abstract parameter `test`, standing
for `new RegExp(pattern).test(url)`), and the method filter does not block. -/
def ruleWins (test : String → String → Bool) (url method : String)
    (r : InterceptRule) : Bool :=
  r.enabled && test r.urlPattern url && !(methodBlocks r.method method)

/-- Method `InterceptManager.findMatchingRule`: scan the rules in insertion
order, skipping disabled rules, URL mismatches and method mismatches, and
return the first survivor. -/
def findMatchingRule (test : String → String → Bool) (url method : String) :
    List InterceptRule → Option InterceptRule
  | [] => none
  | rule :: rest =>
      if !rule.enabled then findMatchingRule test url method rest
      else if !(test rule.urlPattern url) then findMatchingRule test url method rest
      else if methodBlocks rule.method method then findMatchingRule test url method rest
      else some rule

/-- In-place `matchingRule.matchCount++`: the rules map holds a shared
reference, so the increment is visible at the rule with the matched id. -/
def bumpMatchCount (rules : List InterceptRule) (id : String) :
    List InterceptRule :=
  rules.map (fun r => if r.id = id then { r with matchCount := r.matchCount + 1 } else r)

/-- Decomposition of the request URL as performed by `new URL(url)` in the
proxy branch: `origin ++ pathname ++ search` is the raw URL string. -/
structure UrlParts where
  origin : String
  pathname : String
  search : String
deriving DecidableEq, Repr

/-- Serialization of the request URL (what `request.url()` returns). -/
def UrlParts.toUrl (u : UrlParts) : String := u.origin ++ u.pathname ++ u.search

/-- Upstream result of a successful proxy `fetch` (status, headers as iterated
by `Headers.forEach`, and the awaited `text()` body). -/
structure UpstreamResponse where
  status : Nat
  headers : List (String × String)
  body : String
deriving DecidableEq, Repr

/-- The hop-by-hop headers skipped when copying the upstream response. -/
def hopByHopHeaders : List String :=
  ["content-encoding", "transfer-encoding", "connection"]

/-- The `proxyHeaders` accumulation loop: copy every upstream header whose
lowercased name is not hop-by-hop into a fresh JS object. -/
def buildProxyHeaders (hs : List (String × String)) : List (String × String) :=
  hs.foldl
    (fun acc kv =>
      if hopByHopHeaders.contains kv.1.toLower then acc
      else jsMapSet acc kv.1 kv.2)
    []

/-- The spread merge `{ ...proxyHeaders, ...(response.headers || {}) }`: start
from the base object and write every extra binding over it, later keys
winning. -/
def mergeHeaders (base extra : List (String × String)) :
    List (String × String) :=
  extra.foldl (fun acc kv => jsMapSet acc kv.1 kv.2) base

/-- Outcome of `handleRoute` on the `Route` object. -/
inductive RouteAction where
  | continueRequest
  | abortRequest (errorCode : String)
  | fulfill (status : Nat) (headers : List (String × String)) (body : String)
deriving DecidableEq, Repr

/-- Method `InterceptManager.handleRoute` as a pure transition.  `test` is the
regex engine, `fetchFn` the ambient `fetch` composed with `.text()` (an
`Except` models the caught rejection), `requestUrl` the parsed request URL.
The injected `delay` only suspends and is invisible to the state.  JS
truthiness: `response.abort` must be `some true` to abort, and
`response.proxyUrl` must be set and non-empty to proxy. -/
def handleRoute (test : String → String → Bool)
    (fetchFn : String → Except String UpstreamResponse)
    (s : InterceptState) (requestUrl : UrlParts) (method : String) :
    InterceptState × RouteAction :=
  let url := requestUrl.toUrl
  if !s.enabled then (s, RouteAction.continueRequest)
  else
    match findMatchingRule test url method s.rules with
    | none => (s, RouteAction.continueRequest)
    | some rule =>
        let s := { s with rules := bumpMatchCount s.rules rule.id }
        if rule.response.abort.getD false then
          (s, RouteAction.abortRequest "failed")
        else if !(rule.response.proxyUrl.getD "" == "") then
          let proxyUrl := rule.response.proxyUrl.getD ""
          let targetUrl := proxyUrl ++ requestUrl.pathname ++ requestUrl.search
          match fetchFn targetUrl with
          | Except.ok proxyResponse =>
              let proxyHeaders := buildProxyHeaders proxyResponse.headers
              let finalHeaders := mergeHeaders proxyHeaders (rule.response.headers.getD [])
              (s, RouteAction.fulfill (rule.response.status.getD proxyResponse.status)
                    finalHeaders proxyResponse.body)
          | Except.error e =>
              (s, RouteAction.fulfill 500 [] ("Proxy error: " ++ e))
        else
          (s, RouteAction.fulfill (rule.response.status.getD 200)
                (rule.response.headers.getD []) (rule.response.body.getD ""))

/-- Method `InterceptManager.addRule`.  The generated id spends `nextId`
*before* the duplicate check (`options.id || rule-${this.nextId++}`, a JS
truthiness test under which an empty caller id also generates), so the
post-call state is returned alongside the thrown/returned result. -/
def addRule (s : InterceptState) (options : AddInterceptRuleOptions) :
    InterceptState × Except String InterceptRule :=
  let generated := options.id.getD "" == ""
  let id := if generated then "rule-" ++ toString s.nextId else options.id.getD ""
  let s1 := if generated then { s with nextId := s.nextId + 1 } else s
  if s1.rules.any (fun r => r.id == id) then
    (s1, Except.error ("Rule with id " ++ id ++ " already exists"))
  else
    let rule : InterceptRule :=
      { id := id, urlPattern := options.urlPattern, method := options.method,
        response := options.response, delay := options.delay.getD 0,
        enabled := options.enabled.getD true, matchCount := 0 }
    ({ s1 with rules := s1.rules ++ [rule] }, Except.ok rule)

/-- Method `InterceptManager.removeRule`. -/
def removeRule (s : InterceptState) (id : String) : InterceptState × Bool :=
  if s.rules.any (fun r => r.id == id) then
    ({ s with rules := s.rules.filter (fun r => !(r.id == id)) }, true)
  else (s, false)

/-- Method `InterceptManager.setEnabled`. -/
def setInterceptEnabled (s : InterceptState) (enabled : Bool) : InterceptState :=
  { s with enabled := enabled }

/-- Method `InterceptManager.getStatus`. -/
def getInterceptStatus (s : InterceptState) : InterceptStatus :=
  { enabled := s.enabled, ruleCount := s.rules.length,
    totalMatches := s.rules.foldl (fun sum r => sum + r.matchCount) 0 }

/-!
Invariant machinery for the recorder.
-/

/-- Ids of the retained entries, in log order. -/
def entryIds (s : RecorderState) : List Nat := s.entries.map (fun e => e.id)

/-- Reachable-state invariant of the recorder: the log never exceeds the cap,
the id counter is strictly ahead of the retained count, and the retained ids
are exactly the contiguous block ending at the watermark `nextId - 1`. -/
def RecorderInv (s : RecorderState) : Prop :=
  s.entries.length ≤ MAX_ENTRIES ∧
  s.entries.length < s.nextId ∧
  entryIds s = List.range' (s.nextId - s.entries.length) s.entries.length

theorem inv_initialRecorder : RecorderInv initialRecorder := by
  refine ⟨by simp [initialRecorder, MAX_ENTRIES], by simp [initialRecorder], ?_⟩
  simp [entryIds, initialRecorder]

theorem range'_drop (a n k : Nat) :
    (List.range' a n).drop k = List.range' (a + k) (n - k) := by
  induction n generalizing a k with
  | zero => simp
  | succ n ih =>
    cases k with
    | zero => simp
    | succ k =>
      rw [List.range'_succ, List.drop_succ_cons, ih]
      congr 1 <;> omega

theorem range'_glue {a b c : Nat} (hab : a ≤ b) (hbc : b ≤ c) :
    List.range' a (b - a) ++ List.range' b (c - b) = List.range' a (c - a) := by
  obtain ⟨d1, rfl⟩ : ∃ d1, b = a + d1 := ⟨b - a, by omega⟩
  obtain ⟨d2, rfl⟩ : ∃ d2, c = a + d1 + d2 := ⟨c - (a + d1), by omega⟩
  have h1 : a + d1 - a = d1 := by omega
  have h2 : a + d1 + d2 - (a + d1) = d2 := by omega
  have h3 : a + d1 + d2 - a = d1 + d2 := by omega
  rw [h1, h2, h3, List.range'_append_1]
  congr 1
  omega

theorem addEntry_not_enabled (s : RecorderState) (t : ActivityType)
    (d : EntryData) (now : Int) (h : s.enabled = false) :
    addEntry s t d now = s := by
  simp [addEntry, h]

theorem addEntry_enabled (s : RecorderState) (t : ActivityType) (d : EntryData)
    (now : Int) (h : s.enabled = true) :
    addEntry s t d now =
      { s with
        entries :=
          if MAX_ENTRIES < s.entries.length + 1 then
            (s.entries ++
                [({ id := s.nextId, timestamp := now, type := t, data := d } :
                  ActivityEntry)]).drop
              (s.entries.length + 1 - MAX_ENTRIES)
          else
            s.entries ++
              [({ id := s.nextId, timestamp := now, type := t, data := d } :
                ActivityEntry)],
        nextId := s.nextId + 1 } := by
  simp [addEntry, h]

theorem inv_addEntry (s : RecorderState) (t : ActivityType) (d : EntryData)
    (now : Int) (hinv : RecorderInv s) : RecorderInv (addEntry s t d now) := by
  obtain ⟨hcap, hlt, hids⟩ := hinv
  by_cases h : s.enabled = true
  · rw [addEntry_enabled s t d now h]
    have hconcat :
        (s.entries ++
            [({ id := s.nextId, timestamp := now, type := t, data := d } :
              ActivityEntry)]).map
            (fun e => e.id) =
          List.range' (s.nextId - s.entries.length) (s.entries.length + 1) := by
      rw [List.map_append]
      have : (s.entries.map fun e => e.id) = entryIds s := rfl
      rw [this, hids, List.range'_1_concat]
      simp
      omega
    by_cases htrim : MAX_ENTRIES < s.entries.length + 1
    · refine ⟨?_, ?_, ?_⟩
      · simp [htrim]
        omega
      · simp [htrim]
        omega
      · simp only [entryIds, htrim, if_pos]
        rw [List.map_drop, hconcat, range'_drop]
        simp
        omega
    · refine ⟨?_, ?_, ?_⟩
      · simp [htrim]
        omega
      · simp [htrim]
        omega
      · simp only [entryIds, htrim, if_neg, not_false_iff]
        rw [hconcat]
        simp
  · rw [addEntry_not_enabled s t d now (by revert h; cases s.enabled <;> simp)]
    exact ⟨hcap, hlt, hids⟩

theorem inv_applyRecOp (s : RecorderState) (op : RecOp) (hinv : RecorderInv s) :
    RecorderInv (applyRecOp s op) := by
  cases op with
  | record t d now => exact inv_addEntry s t d now hinv
  | request url method rt pd now =>
      exact inv_addEntry _ _ _ _ hinv
  | response url method rt st stx body now =>
      by_cases h : s.enabled = true
      · simp only [applyRecOp, handleResponse, h]
        exact inv_addEntry _ _ _ _ hinv
      · have h' : s.enabled = false := by revert h; cases s.enabled <;> simp
        simp only [applyRecOp, handleResponse, h']
        exact hinv
  | requestFailed url method rt f now => exact inv_addEntry _ _ _ _ hinv
  | start cb => exact hinv
  | stop => exact hinv
  | clear =>
      obtain ⟨hcap, hlt, hids⟩ := hinv
      refine ⟨by simp [applyRecOp, clearRecorder], ?_, ?_⟩
      · simp only [applyRecOp, clearRecorder]
        simp
        omega
      · simp [applyRecOp, clearRecorder, entryIds]
  | setAuto b => exact hinv
  | attach =>
      simp only [applyRecOp, attachRecorder]
      split
      · exact hinv
      · exact hinv

theorem runRecOps_nil (s : RecorderState) : runRecOps s [] = s := rfl

theorem runRecOps_cons (s : RecorderState) (op : RecOp) (ops : List RecOp) :
    runRecOps s (op :: ops) = runRecOps (applyRecOp s op) ops := rfl

theorem inv_runRecOps (ops : List RecOp) :
    ∀ s : RecorderState, RecorderInv s → RecorderInv (runRecOps s ops) := by
  induction ops with
  | nil => intro s h; exact h
  | cons op ops ih =>
      intro s h
      rw [runRecOps_cons]
      exact ih _ (inv_applyRecOp s op h)

theorem nextId_addEntry (s : RecorderState) (t : ActivityType) (d : EntryData)
    (now : Int) :
    (addEntry s t d now).nextId =
      if s.enabled then s.nextId + 1 else s.nextId := by
  by_cases h : s.enabled <;> simp [addEntry, h]

theorem nextId_applyRecOp_bounds (s : RecorderState) (op : RecOp) :
    s.nextId ≤ (applyRecOp s op).nextId ∧
      (applyRecOp s op).nextId ≤ s.nextId + 1 := by
  cases op with
  | record t d now =>
      simp only [applyRecOp, nextId_addEntry]
      split <;> omega
  | request url method rt pd now =>
      simp only [applyRecOp, handleRequest, nextId_addEntry]
      split <;> omega
  | response url method rt st stx body now =>
      simp only [applyRecOp, handleResponse]
      split
      · omega
      · simp only [nextId_addEntry]
        split <;> omega
  | requestFailed url method rt f now =>
      simp only [applyRecOp, handleRequestFailed, nextId_addEntry]
      split <;> omega
  | start cb => simp [applyRecOp, startRecorder]
  | stop => simp [applyRecOp, stopRecorder]
  | clear => simp [applyRecOp, clearRecorder]
  | setAuto b => simp [applyRecOp, setAutoStart]
  | attach =>
      simp only [applyRecOp, attachRecorder]
      split <;> simp

theorem nextId_runRecOps_mono (ops : List RecOp) :
    ∀ s : RecorderState, s.nextId ≤ (runRecOps s ops).nextId := by
  induction ops with
  | nil => intro s; exact Nat.le_refl _
  | cons op ops ih =>
      intro s
      rw [runRecOps_cons]
      exact Nat.le_trans (nextId_applyRecOp_bounds s op).1 (ih _)

theorem assignedIds_eq (ops : List RecOp) :
    ∀ s : RecorderState,
      assignedIds s ops =
        List.range' s.nextId ((runRecOps s ops).nextId - s.nextId) := by
  induction ops with
  | nil => intro s; simp [assignedIds, runRecOps_nil]
  | cons op ops ih =>
      intro s
      have hstep : assignedIds s (op :: ops) =
          List.range' s.nextId ((applyRecOp s op).nextId - s.nextId) ++
            assignedIds (applyRecOp s op) ops := rfl
      rw [hstep, ih, runRecOps_cons]
      exact range'_glue (nextId_applyRecOp_bounds s op).1
        (nextId_runRecOps_mono ops (applyRecOp s op))

theorem id_bounds_of_inv (s : RecorderState) (hinv : RecorderInv s)
    (e : ActivityEntry) (he : e ∈ s.entries) :
    s.nextId - s.entries.length ≤ e.id ∧ e.id < s.nextId := by
  have hm : e.id ∈ entryIds s := List.mem_map_of_mem _ he
  rw [hinv.2.2] at hm
  have hb := List.mem_range'_1.mp hm
  have hlt := hinv.2.1
  omega

theorem nodup_entryIds (s : RecorderState) (hinv : RecorderInv s) :
    (s.entries.map (fun e => e.id)).Nodup := by
  have h : (s.entries.map fun e => e.id) = entryIds s := rfl
  rw [h, hinv.2.2]
  exact List.nodup_range' _ _

theorem mem_entries_addEntry (s : RecorderState) (t : ActivityType)
    (d : EntryData) (now : Int) (e : ActivityEntry)
    (he : e ∈ (addEntry s t d now).entries) :
    e ∈ s.entries ∨ e.id = s.nextId := by
  by_cases h : s.enabled = true
  · rw [addEntry_enabled s t d now h] at he
    dsimp only at he
    have hmem : e ∈ s.entries ++
        [({ id := s.nextId, timestamp := now, type := t, data := d } :
          ActivityEntry)] := by
      split at he
      · exact List.drop_subset _ _ he
      · exact he
    rcases List.mem_append.mp hmem with h1 | h2
    · exact Or.inl h1
    · simp at h2
      exact Or.inr (by rw [h2])
  · rw [addEntry_not_enabled s t d now (by revert h; cases s.enabled <;> simp)] at he
    exact Or.inl he

theorem mem_entries_applyRecOp (s : RecorderState) (op : RecOp)
    (e : ActivityEntry) (he : e ∈ (applyRecOp s op).entries) :
    e ∈ s.entries ∨ s.nextId ≤ e.id := by
  cases op with
  | record t d now =>
      rcases mem_entries_addEntry s t d now e he with h | h
      · exact Or.inl h
      · exact Or.inr (Nat.le_of_eq h.symm)
  | request url method rt pd now =>
      rcases mem_entries_addEntry _ _ _ _ e he with h | h
      · exact Or.inl h
      · exact Or.inr (Nat.le_of_eq h.symm)
  | response url method rt st stx body now =>
      by_cases h : s.enabled = true
      · simp only [applyRecOp, handleResponse, h] at he
        rcases mem_entries_addEntry _ _ _ _ e he with h1 | h1
        · exact Or.inl h1
        · exact Or.inr (Nat.le_of_eq h1.symm)
      · have h' : s.enabled = false := by revert h; cases s.enabled <;> simp
        simp only [applyRecOp, handleResponse, h'] at he
        exact Or.inl he
  | requestFailed url method rt f now =>
      rcases mem_entries_addEntry _ _ _ _ e he with h | h
      · exact Or.inl h
      · exact Or.inr (Nat.le_of_eq h.symm)
  | start cb => exact Or.inl he
  | stop => exact Or.inl he
  | clear => simp [applyRecOp, clearRecorder] at he
  | setAuto b => exact Or.inl he
  | attach =>
      simp only [applyRecOp, attachRecorder] at he
      split at he
      · exact Or.inl he
      · exact Or.inl he

theorem mem_entries_runRecOps (ops : List RecOp) :
    ∀ (s : RecorderState) (e : ActivityEntry),
      e ∈ (runRecOps s ops).entries → e ∈ s.entries ∨ s.nextId ≤ e.id := by
  induction ops with
  | nil => intro s e he; exact Or.inl he
  | cons op ops ih =>
      intro s e he
      rw [runRecOps_cons] at he
      rcases ih _ e he with h | h
      · exact mem_entries_applyRecOp s op e h
      · exact Or.inr (Nat.le_trans (nextId_applyRecOp_bounds s op).1 h)

/-- Union of query results deduplicated by entry id, keeping first
occurrences. -/
def dedupById : List ActivityEntry → List ActivityEntry
  | [] => []
  | e :: es => e :: dedupById (es.filter (fun x => x.id != e.id))
termination_by l => l.length
decreasing_by
  simp only [List.length_cons]
  exact Nat.lt_succ_of_le (List.length_filter_le _ _)

theorem dedupById_eq_self (l : List ActivityEntry) :
    (l.map (fun e => e.id)).Nodup → dedupById l = l := by
  induction l using dedupById.induct with
  | case1 => intro _; simp [dedupById]
  | case2 e es ih =>
      intro h
      rw [List.map_cons, List.nodup_cons] at h
      have hfil : es.filter (fun x => x.id != e.id) = es := by
        rw [List.filter_eq_self]
        intro a ha
        simp only [bne_iff_ne, ne_eq, decide_eq_true_eq]
        intro hcontra
        exact h.1 (hcontra ▸ List.mem_map_of_mem _ ha)
      have hstep : dedupById (e :: es) =
          e :: dedupById (es.filter (fun x => x.id != e.id)) := by
        simp [dedupById]
      rw [hstep, ih (by rw [hfil]; exact h.2), hfil]

/-- C1: along every operation sequence on the recorder from its initial
state, event ids are assigned at insertion time in strictly increasing steps
of exactly one and are never reused — the full trace of ids consumed is
precisely `[1, …, watermark]` — including across `clear`, which empties the
entries but keeps the id counter; and the watermark reported by `getState`,
`getEntries` and `getSummary` always equals the highest id assigned so far
(`0` before any event was recorded). -/
theorem recorder_id_assignment_and_watermark (ops : List RecOp) :
    assignedIds initialRecorder ops =
      List.range' 1 ((getState (runRecOps initialRecorder ops)).watermark) ∧
    (getState (runRecOps initialRecorder ops)).watermark =
      (runRecOps initialRecorder ops).nextId - 1 ∧
    (getEntries (runRecOps initialRecorder ops) {}).watermark =
      (getState (runRecOps initialRecorder ops)).watermark ∧
    (getSummary (runRecOps initialRecorder ops)).currentWatermark =
      (getState (runRecOps initialRecorder ops)).watermark ∧
    (getState initialRecorder).watermark = 0 ∧
    (applyRecOp (runRecOps initialRecorder ops) RecOp.clear).nextId =
      (runRecOps initialRecorder ops).nextId ∧
    (applyRecOp (runRecOps initialRecorder ops) RecOp.clear).entries = [] := by
  refine ⟨?_, rfl, rfl, rfl, rfl, rfl, rfl⟩
  rw [assignedIds_eq]
  simp [initialRecorder, getState]

theorem getEntries_since (s : RecorderState) (w : Nat) :
    getEntries s { since := some w } =
      { entries := (s.entries.filter (fun e => decide (w < e.id))).take 1000,
        watermark := s.nextId - 1,
        hasMore :=
          decide (1000 < (s.entries.filter (fun e => decide (w < e.id))).length) } :=
  rfl

/-- C4 (amended): for two calls `query(since=0)` then `query(since=w1)` with
`w1` the watermark of the first call, the id-deduplicated union of the two
entry lists equals a single `query(since=0)` at the later time, provided no
entry was evicted or cleared between the calls and — the amendment — the
later log holds at most the default limit of 1000 entries, so that no call
truncates. -/
theorem getEntries_union_eq_single_query (ops1 ops2 : List RecOp)
    (s1 s2 : RecorderState) (rest : List ActivityEntry)
    (hs1 : s1 = runRecOps initialRecorder ops1)
    (hs2 : s2 = runRecOps s1 ops2)
    (happ : s2.entries = s1.entries ++ rest)
    (hlen : s2.entries.length ≤ 1000) :
    dedupById ((getEntries s1 { since := some 0 }).entries ++
        (getEntries s2
          { since := some ((getEntries s1 { since := some 0 }).watermark) }).entries) =
      (getEntries s2 { since := some 0 }).entries := by
  have hinv1 : RecorderInv s1 := by
    rw [hs1]; exact inv_runRecOps ops1 initialRecorder inv_initialRecorder
  have hinv2 : RecorderInv s2 := by
    rw [hs2]; exact inv_runRecOps ops2 s1 hinv1
  have hn1 : 1 ≤ s1.nextId := by have := hinv1.2.1; omega
  have hlen1 : s1.entries.length ≤ 1000 := by
    have h := hlen; rw [happ, List.length_append] at h; omega
  have hlenr : rest.length ≤ 1000 := by
    have h := hlen; rw [happ, List.length_append] at h; omega
  have hpos1 : s1.entries.filter (fun e => decide (0 < e.id)) = s1.entries := by
    rw [List.filter_eq_self]
    intro e he
    have h1 := id_bounds_of_inv s1 hinv1 e he
    have h2 := hinv1.2.1
    simp only [decide_eq_true_eq]
    omega
  have hpos2 : s2.entries.filter (fun e => decide (0 < e.id)) = s2.entries := by
    rw [List.filter_eq_self]
    intro e he
    have h1 := id_bounds_of_inv s2 hinv2 e he
    have h2 := hinv2.2.1
    simp only [decide_eq_true_eq]
    omega
  have hfilter2 :
      s2.entries.filter (fun e => decide (s1.nextId - 1 < e.id)) = rest := by
    rw [happ, List.filter_append]
    have hleft : s1.entries.filter (fun e => decide (s1.nextId - 1 < e.id)) = [] := by
      rw [List.filter_eq_nil_iff]
      intro e he
      have := id_bounds_of_inv s1 hinv1 e he
      simp only [decide_eq_true_eq]
      omega
    have hright : rest.filter (fun e => decide (s1.nextId - 1 < e.id)) = rest := by
      rw [List.filter_eq_self]
      intro e he
      simp only [decide_eq_true_eq]
      have he2 : e ∈ (runRecOps s1 ops2).entries := by
        rw [← hs2, happ]
        exact List.mem_append.mpr (Or.inr he)
      rcases mem_entries_runRecOps ops2 s1 e he2 with hmem | hge
      · exfalso
        have hnd := nodup_entryIds s2 hinv2
        rw [happ, List.map_append, List.nodup_append] at hnd
        exact hnd.2.2 (List.mem_map_of_mem _ hmem) (List.mem_map_of_mem _ he)
      · omega
    rw [hleft, hright, List.nil_append]
  simp only [getEntries_since]
  rw [hpos1, hpos2, List.take_of_length_le hlen1]
  rw [hfilter2, List.take_of_length_le hlenr, List.take_of_length_le hlen]
  rw [← happ]
  exact dedupById_eq_self s2.entries (nodup_entryIds s2 hinv2)

/-- Witness: the amended union law at a concrete two-entry run. -/
theorem getEntries_union_eq_single_query_witness :
    dedupById ((getEntries (runRecOps initialRecorder
        [RecOp.start false,
          RecOp.record ActivityType.console (EntryData.consoleMsg "log" "m") 0])
        { since := some 0 }).entries ++
      (getEntries (runRecOps (runRecOps initialRecorder
          [RecOp.start false,
            RecOp.record ActivityType.console (EntryData.consoleMsg "log" "m") 0])
          [RecOp.record ActivityType.console (EntryData.consoleMsg "log" "n") 1])
        { since := some ((getEntries (runRecOps initialRecorder
            [RecOp.start false,
              RecOp.record ActivityType.console (EntryData.consoleMsg "log" "m") 0])
            { since := some 0 }).watermark) }).entries) =
      (getEntries (runRecOps (runRecOps initialRecorder
          [RecOp.start false,
            RecOp.record ActivityType.console (EntryData.consoleMsg "log" "m") 0])
          [RecOp.record ActivityType.console (EntryData.consoleMsg "log" "n") 1])
        { since := some 0 }).entries :=
  getEntries_union_eq_single_query
    [RecOp.start false,
      RecOp.record ActivityType.console (EntryData.consoleMsg "log" "m") 0]
    [RecOp.record ActivityType.console (EntryData.consoleMsg "log" "n") 1]
    _ _
    [{ id := 2, timestamp := 1, type := ActivityType.console,
       data := EntryData.consoleMsg "log" "n" }]
    rfl rfl (by decide) (by decide)

/-- Entry shape used to build concrete logs in counterexamples. -/
def cexEntry (i : Nat) : ActivityEntry :=
  { id := i, timestamp := 0, type := ActivityType.console,
    data := EntryData.consoleMsg "log" "m" }

/-- Block of `n` consecutive counterexample entries starting at id `a`. -/
def cexEntries (a n : Nat) : List ActivityEntry := (List.range' a n).map cexEntry

theorem cexEntries_length (a n : Nat) : (cexEntries a n).length = n := by
  simp [cexEntries]

theorem cexEntries_map_id (a n : Nat) :
    (cexEntries a n).map (fun e => e.id) = List.range' a n := by
  unfold cexEntries
  rw [List.map_map]
  exact List.map_id _

theorem mem_cexEntries (a n : Nat) (e : ActivityEntry) (h : e ∈ cexEntries a n) :
    a ≤ e.id ∧ e.id < a + n := by
  simp only [cexEntries, List.mem_map] at h
  obtain ⟨i, hi, rfl⟩ := h
  have := List.mem_range'_1.mp hi
  simp only [cexEntry]
  exact this

theorem cexEntries_filter_gt_all {a n w : Nat} (h : w < a) :
    (cexEntries a n).filter (fun e => decide (w < e.id)) = cexEntries a n := by
  rw [List.filter_eq_self]
  intro e he
  have := mem_cexEntries a n e he
  simp only [decide_eq_true_eq]
  omega

theorem cexEntries_filter_gt_none {a n w : Nat} (h : a + n ≤ w + 1) :
    (cexEntries a n).filter (fun e => decide (w < e.id)) = [] := by
  rw [List.filter_eq_nil_iff]
  intro e he
  have := mem_cexEntries a n e he
  simp only [decide_eq_true_eq]
  omega

theorem cexEntries_split (a m k : Nat) :
    cexEntries a (m + k) = cexEntries a m ++ cexEntries (a + m) k := by
  unfold cexEntries
  rw [← List.map_append, List.range'_append_1, Nat.add_comm k m]

/-- Running `n` recording operations on an enabled recorder with room below
the cap appends the next `n` consecutively-identified entries. -/
theorem runRecOps_replicate_record (n : Nat) :
    ∀ s : RecorderState, s.enabled = true →
      s.entries.length + n ≤ MAX_ENTRIES →
      runRecOps s (List.replicate n
          (RecOp.record ActivityType.console (EntryData.consoleMsg "log" "m") 0)) =
        { s with
          entries := s.entries ++ cexEntries s.nextId n,
          nextId := s.nextId + n } := by
  induction n with
  | zero =>
      intro s hen hcap
      simp [runRecOps_nil, cexEntries]
  | succ n ih =>
      intro s hen hcap
      rw [List.replicate_succ, runRecOps_cons]
      have hstep : applyRecOp s
          (RecOp.record ActivityType.console (EntryData.consoleMsg "log" "m") 0) =
          { s with entries := s.entries ++ [cexEntry s.nextId],
                   nextId := s.nextId + 1 } := by
        show addEntry s _ _ 0 = _
        rw [addEntry_enabled s _ _ 0 hen]
        have hno : ¬ MAX_ENTRIES < s.entries.length + 1 := by omega
        simp only [hno, if_neg, not_false_iff, cexEntry]
      rw [hstep,
        ih { s with entries := s.entries ++ [cexEntry s.nextId],
                    nextId := s.nextId + 1 }
          hen
          (by
            simp only [List.length_append, List.length_cons, List.length_nil]
            omega)]
      dsimp only
      have hsplit : cexEntries s.nextId (n + 1) =
          [cexEntry s.nextId] ++ cexEntries (s.nextId + 1) n := by
        unfold cexEntries
        rw [List.range'_succ]
        rfl
      rw [hsplit, ← List.append_assoc]
      congr 1
      omega

/-- The recording operation used by the concrete counterexample runs. -/
def cexOp : RecOp :=
  RecOp.record ActivityType.console (EntryData.consoleMsg "log" "m") 0

/-- Start recording, then record 1000 events. -/
def cexOps : List RecOp := RecOp.start false :: List.replicate 1000 cexOp

theorem cex_s1_eq : runRecOps initialRecorder cexOps =
    { entries := cexEntries 1 1000, nextId := 1001, enabled := true,
      autoStart := true, captureNetworkBodies := false, requestTimings := [] } := by
  unfold cexOps cexOp
  rw [runRecOps_cons]
  have h1 : applyRecOp initialRecorder (RecOp.start false) =
      { entries := [], nextId := 1, enabled := true, autoStart := true,
        captureNetworkBodies := false, requestTimings := [] } := rfl
  rw [h1, runRecOps_replicate_record 1000 _ rfl (by decide)]
  simp

theorem cexEntries_1001_split :
    cexEntries 1 1001 = cexEntries 1 1000 ++ cexEntries 1001 1 := by
  have h := cexEntries_split 1 1000 1
  norm_num at h
  exact h

theorem cex_s2_eq :
    runRecOps (runRecOps initialRecorder cexOps) [cexOp] =
    { entries := cexEntries 1 1001, nextId := 1002, enabled := true,
      autoStart := true, captureNetworkBodies := false, requestTimings := [] } := by
  rw [cex_s1_eq]
  have hrep : ([cexOp] : List RecOp) = List.replicate 1 cexOp := rfl
  rw [hrep]
  unfold cexOp
  rw [runRecOps_replicate_record 1 _ rfl
    (by dsimp only; rw [cexEntries_length]; decide)]
  dsimp only
  rw [cexEntries_1001_split]

/-- Counterexample to C4 as stated: after 1000 recorded events followed by one
more record — no eviction, the later entry list literally extends the earlier
one — the id-deduplicated union of `query(since=0)` and
`query(since=watermark_1)` holds all 1001 entries, but a single
`query(since=0)` at the later time truncates at the default limit of 1000,
so the two sides differ. -/
theorem getEntries_union_counterexample :
    (runRecOps (runRecOps initialRecorder cexOps) [cexOp]).entries =
      (runRecOps initialRecorder cexOps).entries ++ [cexEntry 1001] ∧
    dedupById ((getEntries (runRecOps initialRecorder cexOps)
          { since := some 0 }).entries ++
        (getEntries (runRecOps (runRecOps initialRecorder cexOps) [cexOp])
          { since := some ((getEntries (runRecOps initialRecorder cexOps)
              { since := some 0 }).watermark) }).entries) ≠
      (getEntries (runRecOps (runRecOps initialRecorder cexOps) [cexOp])
        { since := some 0 }).entries := by
  have hq1filter : (cexEntries 1 1000).filter (fun e => decide (0 < e.id)) =
      cexEntries 1 1000 := cexEntries_filter_gt_all (by omega)
  have hq3filter : (cexEntries 1 1001).filter (fun e => decide (0 < e.id)) =
      cexEntries 1 1001 := cexEntries_filter_gt_all (by omega)
  have hq2filter : (cexEntries 1 1001).filter (fun e => decide (1000 < e.id)) =
      cexEntries 1001 1 := by
    rw [cexEntries_1001_split, List.filter_append,
      cexEntries_filter_gt_none (by omega), cexEntries_filter_gt_all (by omega),
      List.nil_append]
  constructor
  · rw [cex_s2_eq, cex_s1_eq]
    dsimp only
    rw [cexEntries_1001_split]
    rfl
  · rw [cex_s2_eq, cex_s1_eq]
    simp only [getEntries_since]
    norm_num
    rw [hq1filter, hq3filter, hq2filter]
    rw [List.take_of_length_le (by rw [cexEntries_length]),
      List.take_of_length_le (by rw [cexEntries_length]; omega)]
    rw [cexEntries_1001_split, List.take_left' (cexEntries_length 1 1000)]
    rw [← cexEntries_1001_split]
    rw [dedupById_eq_self (cexEntries 1 1001)
      (by rw [cexEntries_map_id]; exact List.nodup_range' _ _)]
    intro heq
    have hlen := congrArg List.length heq
    rw [cexEntries_length, cexEntries_length] at hlen
    omega

theorem requestTimings_addEntry (s : RecorderState) (t : ActivityType)
    (d : EntryData) (now : Int) :
    (addEntry s t d now).requestTimings = s.requestTimings := by
  by_cases h : s.enabled <;> simp [addEntry, h]

/-- C6: on every reachable recorder state, a record operation (`addEntry`)
retains at most `MAX_ENTRIES` (10000) entries; when the insertion overflows
the cap the smallest-id entries are dropped from the front (FIFO by id,
independent of kind), so the retained entries always form the contiguous
block of highest ids; the operation is total — a pure no-op when disabled
and an append-and-trim when enabled — and never fails. -/
theorem record_cap_fifo_eviction (ops : List RecOp) (s : RecorderState)
    (hs : s = runRecOps initialRecorder ops)
    (t : ActivityType) (d : EntryData) (now : Int) :
    (addEntry s t d now).entries.length ≤ MAX_ENTRIES ∧
    (s.enabled = false → addEntry s t d now = s) ∧
    (s.enabled = true →
      (addEntry s t d now).entries =
        (s.entries ++
            [({ id := s.nextId, timestamp := now, type := t, data := d } :
              ActivityEntry)]).drop
          (s.entries.length + 1 - MAX_ENTRIES)) ∧
    (addEntry s t d now).entries.map (fun e => e.id) =
      List.range'
        ((addEntry s t d now).nextId - (addEntry s t d now).entries.length)
        (addEntry s t d now).entries.length := by
  have hinv : RecorderInv s := by
    rw [hs]; exact inv_runRecOps ops initialRecorder inv_initialRecorder
  have hinv' : RecorderInv (addEntry s t d now) := inv_addEntry s t d now hinv
  refine ⟨hinv'.1, fun h => addEntry_not_enabled s t d now h, fun h => ?_, hinv'.2.2⟩
  rw [addEntry_enabled s t d now h]
  dsimp only
  by_cases htrim : MAX_ENTRIES < s.entries.length + 1
  · simp only [htrim, if_pos]
  · simp only [htrim, if_neg, not_false_iff]
    have hz : s.entries.length + 1 - MAX_ENTRIES = 0 := by omega
    rw [hz, List.drop_zero]

/-- Witness: the cap/FIFO/no-op facts at a freshly started recorder. -/
theorem record_cap_fifo_eviction_witness :
    (addEntry (runRecOps initialRecorder [RecOp.start false])
        ActivityType.console (EntryData.consoleMsg "log" "m") 0).entries.length ≤
      MAX_ENTRIES ∧
    ((runRecOps initialRecorder [RecOp.start false]).enabled = false →
      addEntry (runRecOps initialRecorder [RecOp.start false])
          ActivityType.console (EntryData.consoleMsg "log" "m") 0 =
        runRecOps initialRecorder [RecOp.start false]) ∧
    ((runRecOps initialRecorder [RecOp.start false]).enabled = true →
      (addEntry (runRecOps initialRecorder [RecOp.start false])
          ActivityType.console (EntryData.consoleMsg "log" "m") 0).entries =
        ((runRecOps initialRecorder [RecOp.start false]).entries ++
            [({ id := (runRecOps initialRecorder [RecOp.start false]).nextId,
                timestamp := 0, type := ActivityType.console,
                data := EntryData.consoleMsg "log" "m" } : ActivityEntry)]).drop
          ((runRecOps initialRecorder [RecOp.start false]).entries.length + 1 -
            MAX_ENTRIES)) ∧
    (addEntry (runRecOps initialRecorder [RecOp.start false])
        ActivityType.console (EntryData.consoleMsg "log" "m") 0).entries.map
        (fun e => e.id) =
      List.range'
        ((addEntry (runRecOps initialRecorder [RecOp.start false])
              ActivityType.console (EntryData.consoleMsg "log" "m") 0).nextId -
          (addEntry (runRecOps initialRecorder [RecOp.start false])
              ActivityType.console (EntryData.consoleMsg "log" "m") 0).entries.length)
        (addEntry (runRecOps initialRecorder [RecOp.start false])
            ActivityType.console (EntryData.consoleMsg "log" "m") 0).entries.length :=
  record_cap_fifo_eviction [RecOp.start false] _ rfl
    ActivityType.console (EntryData.consoleMsg "log" "m") 0

/-- C2 (amended): while recording is enabled, handling a response whose
url+method key holds a stored nonzero start time records a network-response
event whose duration is the handling time minus that start time; but the key
is *not* removed — neither response handling nor request-failure handling
touches the request-timing table, which is emptied only by `clear`. -/
theorem response_duration_and_table_kept (s : RecorderState)
    (url method resourceType : String) (status : Nat)
    (statusText capturedBody : String) (now t : Int)
    (hen : s.enabled = true)
    (hget : jsMapGet s.requestTimings (url ++ method) = some t)
    (ht : t ≠ 0) :
    handleResponse s url method resourceType status statusText capturedBody now =
      addEntry s ActivityType.networkResponse
        (EntryData.response method url resourceType status statusText
          (some (now - t))
          (if s.captureNetworkBodies then some capturedBody else none)) now ∧
    (handleResponse s url method resourceType status statusText capturedBody
        now).requestTimings = s.requestTimings ∧
    jsMapGet (handleResponse s url method resourceType status statusText
        capturedBody now).requestTimings (url ++ method) = some t ∧
    (handleRequestFailed s url method resourceType none now).requestTimings =
      s.requestTimings := by
  have h1 : handleResponse s url method resourceType status statusText
      capturedBody now =
      addEntry s ActivityType.networkResponse
        (EntryData.response method url resourceType status statusText
          (some (now - t))
          (if s.captureNetworkBodies then some capturedBody else none)) now := by
    unfold handleResponse
    rw [if_neg (by simp [hen])]
    simp only [hget, if_neg ht]
  refine ⟨h1, ?_, ?_, requestTimings_addEntry s _ _ now⟩
  · rw [h1, requestTimings_addEntry]
  · rw [h1, requestTimings_addEntry]
    exact hget

/-- Witness: duration computation and key retention after a concrete
request/response pair recorded at times 1 and 121. -/
theorem response_duration_and_table_kept_witness :
    handleResponse (runRecOps initialRecorder
        [RecOp.start false, RecOp.request "/x" "GET" "fetch" none 1])
        "/x" "GET" "fetch" 200 "OK" "" 121 =
      addEntry (runRecOps initialRecorder
          [RecOp.start false, RecOp.request "/x" "GET" "fetch" none 1])
        ActivityType.networkResponse
        (EntryData.response "GET" "/x" "fetch" 200 "OK" (some (121 - 1))
          (if (runRecOps initialRecorder
              [RecOp.start false,
                RecOp.request "/x" "GET" "fetch" none 1]).captureNetworkBodies then
            some ""
          else none)) 121 ∧
    (handleResponse (runRecOps initialRecorder
        [RecOp.start false, RecOp.request "/x" "GET" "fetch" none 1])
        "/x" "GET" "fetch" 200 "OK" "" 121).requestTimings =
      (runRecOps initialRecorder
        [RecOp.start false, RecOp.request "/x" "GET" "fetch" none 1]).requestTimings ∧
    jsMapGet (handleResponse (runRecOps initialRecorder
        [RecOp.start false, RecOp.request "/x" "GET" "fetch" none 1])
        "/x" "GET" "fetch" 200 "OK" "" 121).requestTimings ("/x" ++ "GET") =
      some 1 ∧
    (handleRequestFailed (runRecOps initialRecorder
        [RecOp.start false, RecOp.request "/x" "GET" "fetch" none 1])
        "/x" "GET" "fetch" none 121).requestTimings =
      (runRecOps initialRecorder
        [RecOp.start false, RecOp.request "/x" "GET" "fetch" none 1]).requestTimings :=
  response_duration_and_table_kept _ "/x" "GET" "fetch" 200 "OK" "" 121 1
    (by decide) (by decide) (by decide)

/-- Counterexample to C2 as stated: request `GET /x` at t=0, response at
t=120.  The stored start time 0 is falsy in JS, so the recorded response
event carries no duration at all (not 120); and the `GET /x` timing key is
still in the table after the response was handled. -/
theorem response_timing_counterexample :
    jsMapGet (handleResponse (runRecOps initialRecorder
        [RecOp.start false, RecOp.request "/x" "GET" "fetch" none 0])
        "/x" "GET" "fetch" 200 "OK" "" 120).requestTimings ("/x" ++ "GET") =
      some 0 ∧
    (handleResponse (runRecOps initialRecorder
        [RecOp.start false, RecOp.request "/x" "GET" "fetch" none 0])
        "/x" "GET" "fetch" 200 "OK" "" 120).entries.map (fun e => e.data) =
      [EntryData.request "GET" "/x" "fetch" none,
        EntryData.response "GET" "/x" "fetch" 200 "OK" none none] := by
  decide

/-- C9 (amended): when recording is disabled, a request signal appends no
entry and consumes no id, but it *does* write the url+method start time into
the request-timing table — the `requestTimings.set` runs before any enabled
check. -/
theorem handleRequest_disabled_effects (s : RecorderState)
    (url method resourceType : String) (postData : Option String) (now : Int)
    (hdis : s.enabled = false) :
    (handleRequest s url method resourceType postData now).entries =
      s.entries ∧
    (handleRequest s url method resourceType postData now).nextId = s.nextId ∧
    (handleRequest s url method resourceType postData now).requestTimings =
      jsMapSet s.requestTimings (url ++ method) now := by
  unfold handleRequest
  dsimp only
  rw [addEntry_not_enabled
    { s with requestTimings := jsMapSet s.requestTimings (url ++ method) now }
    ActivityType.networkRequest (EntryData.request method url resourceType postData)
    now hdis]
  exact ⟨rfl, rfl, rfl⟩

/-- Witness: the disabled-request effects at the initial (disabled) state. -/
theorem handleRequest_disabled_effects_witness :
    (handleRequest initialRecorder "/x" "GET" "fetch" none 5).entries =
      initialRecorder.entries ∧
    (handleRequest initialRecorder "/x" "GET" "fetch" none 5).nextId =
      initialRecorder.nextId ∧
    (handleRequest initialRecorder "/x" "GET" "fetch" none 5).requestTimings =
      jsMapSet initialRecorder.requestTimings ("/x" ++ "GET") 5 :=
  handleRequest_disabled_effects initialRecorder "/x" "GET" "fetch" none 5 rfl

/-- Counterexample to C9 as stated: on the initial state (recording
disabled), a request signal leaves log and id counter untouched but *adds*
the url+method start time to the correlation table. -/
theorem handleRequest_disabled_counterexample :
    initialRecorder.enabled = false ∧
    (handleRequest initialRecorder "/x" "GET" "fetch" none 5).entries = [] ∧
    (handleRequest initialRecorder "/x" "GET" "fetch" none 5).nextId = 1 ∧
    (handleRequest initialRecorder "/x" "GET" "fetch" none 5).requestTimings =
      [("/xGET", 5)] := by
  decide

/-- C10: the recording side effect of `attach` — `enabled` becomes
`autoStart || enabled`: when `autoStart` is true (its initial value) attach
turns recording on, even right after an explicit `stop`; when `autoStart` is
false attach leaves the state unchanged; attach never turns recording off. -/
theorem attach_autostart_effects (s : RecorderState) :
    (attachRecorder s).enabled = (s.autoStart || s.enabled) ∧
    (s.autoStart = false → attachRecorder s = s) ∧
    (s.enabled = true → (attachRecorder s).enabled = true) ∧
    (attachRecorder s).autoStart = s.autoStart ∧
    (attachRecorder (stopRecorder s).1).enabled = s.autoStart ∧
    initialRecorder.autoStart = true := by
  unfold attachRecorder stopRecorder
  cases hA : s.autoStart <;> cases hE : s.enabled <;>
    simp [hA, hE, initialRecorder]

/-- Witness: attach re-enables a stopped recorder with autoStart on, and is
the identity when autoStart is off. -/
theorem attach_autostart_effects_witness :
    attachRecorder { initialRecorder with enabled := true, autoStart := false } =
      { initialRecorder with enabled := true, autoStart := false } ∧
    (attachRecorder (stopRecorder initialRecorder).1).enabled = true :=
  ⟨(attach_autostart_effects _).2.1 rfl,
    ((attach_autostart_effects initialRecorder).2.2.2.2.1).trans rfl⟩

/-!
Association-map lemmas for the JS `Map` / object model.
-/

theorem jsMapGet_nil {α : Type} (k : String) :
    jsMapGet ([] : List (String × α)) k = none := rfl

theorem jsMapGet_map_replace {α : Type} (rest : List (String × α))
    (k : String) (v : α) (k' : String) (h : k' ≠ k) :
    jsMapGet (rest.map (fun p => if p.1 == k then (k, v) else p)) k' =
      jsMapGet rest k' := by
  induction rest with
  | nil => rfl
  | cons p rest ih =>
      by_cases hp : (p.1 == k) = true
      · have hpk : p.1 = k := by simpa using hp
        simp only [List.map_cons, if_pos hp, jsMapGet, List.find?_cons]
        have h1 : (k == k') = false := by
          simp only [beq_eq_false_iff_ne, ne_eq]
          exact fun hc => h hc.symm
        have h2 : (p.1 == k') = false := by
          rw [hpk]
          simp only [beq_eq_false_iff_ne, ne_eq]
          exact fun hc => h hc.symm
        rw [h1, h2]
        exact ih
      · simp only [List.map_cons, if_neg hp, jsMapGet, List.find?_cons]
        by_cases hq : (p.1 == k') = true
        · rw [hq]
        · rw [Bool.not_eq_true] at hq
          rw [hq]
          exact ih

theorem jsMapGet_of_any_eq_false {α : Type} (m : List (String × α)) (k : String)
    (h : m.any (fun p => p.1 == k) = false) : jsMapGet m k = none := by
  unfold jsMapGet
  rw [List.find?_eq_none.mpr]
  · rfl
  · intro p hp
    have := List.any_eq_false.mp h p hp
    simpa using this

theorem jsMapGet_map_self {α : Type} (m : List (String × α)) (k : String) (v : α)
    (h : m.any (fun p => p.1 == k) = true) :
    jsMapGet (m.map (fun p => if p.1 == k then (k, v) else p)) k = some v := by
  induction m with
  | nil => simp at h
  | cons p rest ih =>
      by_cases hp : (p.1 == k) = true
      · simp only [List.map_cons, if_pos hp, jsMapGet, List.find?_cons,
          beq_self_eq_true]
        rfl
      · rw [Bool.not_eq_true] at hp
        have hrest : rest.any (fun q => q.1 == k) = true := by
          simp only [List.any_cons, hp, Bool.false_or] at h
          exact h
        have hin := ih hrest
        unfold jsMapGet at hin ⊢
        simp only [List.map_cons, hp, Bool.false_eq_true, if_false,
          List.find?_cons]
        exact hin

theorem jsMapGet_jsMapSet {α : Type} (m : List (String × α)) (k : String) (v : α)
    (k' : String) :
    jsMapGet (jsMapSet m k v) k' = if k' = k then some v else jsMapGet m k' := by
  unfold jsMapSet
  by_cases hany : (m.any fun p => p.1 == k) = true
  · rw [if_pos hany]
    by_cases hk : k' = k
    · subst hk
      rw [if_pos rfl]
      exact jsMapGet_map_self m k' v hany
    · rw [if_neg hk]
      exact jsMapGet_map_replace m k v k' hk
  · rw [Bool.not_eq_true] at hany
    rw [if_neg (by rw [hany]; simp)]
    unfold jsMapGet
    rw [List.find?_append]
    have hnone : m.find? (fun p => p.1 == k) = none := by
      rw [List.find?_eq_none]
      intro p hp
      have := List.any_eq_false.mp hany p hp
      simpa using this
    by_cases hk : k' = k
    · subst hk
      rw [hnone]
      simp [List.find?_cons]
    · have h1 : ((k, v).1 == k') = false := by
        simp only [beq_eq_false_iff_ne, ne_eq]
        exact fun hc => hk hc.symm
      cases hf : m.find? (fun p => p.1 == k') with
      | none =>
          rw [if_neg hk]
          simp [List.find?_cons, h1, hf]
      | some p =>
          rw [if_neg hk]
          simp [List.find?_cons, h1, hf]

/-- The binding that survives a JS object spread for a key: the last
occurrence in the written object wins. -/
def lastLookup (m : List (String × String)) (k : String) : Option String :=
  match m with
  | [] => none
  | p :: rest =>
      match lastLookup rest k with
      | some v => some v
      | none => if p.1 = k then some p.2 else none

theorem jsMapGet_mergeHeaders (extra : List (String × String)) :
    ∀ (base : List (String × String)) (k : String),
      jsMapGet (mergeHeaders base extra) k =
        match lastLookup extra k with
        | some v => some v
        | none => jsMapGet base k := by
  induction extra with
  | nil => intro base k; rfl
  | cons p rest ih =>
      intro base k
      have hstep : mergeHeaders base (p :: rest) =
          mergeHeaders (jsMapSet base p.1 p.2) rest := rfl
      rw [hstep, ih]
      cases hll : lastLookup rest k with
      | some v => simp [lastLookup, hll]
      | none =>
          simp only [lastLookup, hll, jsMapGet_jsMapSet]
          by_cases hk : k = p.1
          · rw [if_pos hk, if_pos hk.symm]
          · rw [if_neg hk, if_neg (fun hc => hk hc.symm)]

theorem mem_jsMapSet {α : Type} (acc : List (String × α)) (k : String) (v : α)
    (p : String × α) (hp : p ∈ jsMapSet acc k v) : p ∈ acc ∨ p.1 = k := by
  unfold jsMapSet at hp
  split at hp
  · obtain ⟨q, hq, hmap⟩ := List.mem_map.mp hp
    by_cases h : (q.1 == k) = true
    · rw [if_pos h] at hmap
      right
      rw [← hmap]
    · rw [if_neg h] at hmap
      left
      rw [← hmap]
      exact hq
  · rcases List.mem_append.mp hp with h | h
    · exact Or.inl h
    · simp only [List.mem_singleton] at h
      right
      rw [h]

theorem jsMapGet_buildProxyHeaders_hop (hs : List (String × String)) (k : String)
    (hk : k.toLower ∈ hopByHopHeaders) :
    jsMapGet (buildProxyHeaders hs) k = none := by
  suffices h : ∀ acc : List (String × String),
      (∀ p ∈ acc, p.1.toLower ∉ hopByHopHeaders) →
      jsMapGet (hs.foldl
        (fun acc kv =>
          if hopByHopHeaders.contains kv.1.toLower then acc
          else jsMapSet acc kv.1 kv.2) acc) k = none by
    exact h [] (by intro p hp; cases hp)
  induction hs with
  | nil =>
      intro acc hacc
      unfold jsMapGet
      rw [List.foldl_nil, List.find?_eq_none.mpr]
      · rfl
      · intro p hp
        simp only [beq_iff_eq]
        intro hc
        exact hacc p hp (hc ▸ hk)
  | cons q rest ih =>
      intro acc hacc
      rw [List.foldl_cons]
      by_cases hq : hopByHopHeaders.contains q.1.toLower = true
      · rw [if_pos hq]
        exact ih acc hacc
      · rw [if_neg hq]
        apply ih
        intro p hp
        rcases mem_jsMapSet acc q.1 q.2 p hp with h | h
        · exact hacc p h
        · rw [h]
          intro hc
          exact hq (List.elem_eq_true_of_mem hc)

theorem findMatchingRule_cons (test : String → String → Bool)
    (url method : String) (r : InterceptRule) (rest : List InterceptRule) :
    findMatchingRule test url method (r :: rest) =
      if ruleWins test url method r then some r
      else findMatchingRule test url method rest := by
  cases h1 : r.enabled <;> cases h2 : test r.urlPattern url <;>
    cases h3 : methodBlocks r.method method <;>
      simp [findMatchingRule, ruleWins, h1, h2, h3]

/-- C5: while interception is globally enabled, the winning rule is exactly
the first rule in insertion order that is enabled, whose urlPattern matches
the request URL under the regex engine, and whose method filter (when set to
a non-empty string) equals the request method case-insensitively; when no
rule qualifies nothing wins; in particular a catch-all rule inserted before
a more specific rule wins whenever both patterns match — there is no ranking
beyond insertion order. -/
theorem findMatchingRule_first_match (test : String → String → Bool)
    (url method : String) (rules : List InterceptRule) :
    (∀ r, findMatchingRule test url method rules = some r →
      ∃ pre post, rules = pre ++ r :: post ∧
        ruleWins test url method r = true ∧
        ∀ r2 ∈ pre, ruleWins test url method r2 = false) ∧
    (findMatchingRule test url method rules = none →
      ∀ r ∈ rules, ruleWins test url method r = false) ∧
    (∀ a b : InterceptRule, a.enabled = true → b.enabled = true →
      test a.urlPattern url = true → test b.urlPattern url = true →
      a.method = none →
      findMatchingRule test url method [a, b] = some a) := by
  refine ⟨?_, ?_, ?_⟩
  · induction rules with
    | nil => intro r h; simp [findMatchingRule] at h
    | cons r0 rest ih =>
        intro r h
        rw [findMatchingRule_cons] at h
        by_cases hw : ruleWins test url method r0 = true
        · rw [if_pos hw] at h
          injection h with h
          subst h
          exact ⟨[], rest, rfl, hw, fun r2 h2 => absurd h2 (List.not_mem_nil r2)⟩
        · rw [if_neg hw] at h
          obtain ⟨pre, post, heq, hwin, hpre⟩ := ih r h
          refine ⟨r0 :: pre, post, by rw [heq, List.cons_append], hwin, ?_⟩
          intro r2 h2
          rcases List.mem_cons.mp h2 with h2 | h2
          · rw [h2]
            rw [Bool.not_eq_true] at hw
            exact hw
          · exact hpre r2 h2
  · induction rules with
    | nil => intro _ r h; exact absurd h (List.not_mem_nil r)
    | cons r0 rest ih =>
        intro h r hr
        rw [findMatchingRule_cons] at h
        by_cases hw : ruleWins test url method r0 = true
        · rw [if_pos hw] at h
          cases h
        · rw [if_neg hw] at h
          rcases List.mem_cons.mp hr with hr | hr
          · rw [hr]
            rw [Bool.not_eq_true] at hw
            exact hw
          · exact ih h r hr
  · intro a b ha hb hta htb hm
    have hwa : ruleWins test url method a = true := by
      simp [ruleWins, methodBlocks, ha, hta, hm]
    rw [findMatchingRule_cons, if_pos hwa]

/-- Concrete rules of the interception precedence scenario. -/
def ruleA : InterceptRule :=
  { id := "a", urlPattern := ".*", method := none, response := {}, delay := 0,
    enabled := true, matchCount := 0 }

/-- The later, more specific rule of the precedence scenario. -/
def ruleB : InterceptRule :=
  { id := "b", urlPattern := "/api/.*", method := none, response := {},
    delay := 0, enabled := true, matchCount := 0 }

/-- Witness: the catch-all rule added first wins for a URL both patterns
match. -/
theorem findMatchingRule_first_match_witness :
    findMatchingRule (fun _ _ => true) "/api/users" "GET" [ruleA, ruleB] =
      some ruleA :=
  (findMatchingRule_first_match (fun _ _ => true) "/api/users" "GET"
      [ruleA, ruleB]).2.2 ruleA ruleB rfl rfl rfl rfl rfl

theorem handleRoute_disabled (test : String → String → Bool)
    (fetchFn : String → Except String UpstreamResponse)
    (s : InterceptState) (requestUrl : UrlParts) (method : String)
    (hdis : s.enabled = false) :
    handleRoute test fetchFn s requestUrl method =
      (s, RouteAction.continueRequest) := by
  unfold handleRoute
  rw [if_pos (by simp [hdis])]

theorem handleRoute_state_of_match (test : String → String → Bool)
    (fetchFn : String → Except String UpstreamResponse)
    (s : InterceptState) (requestUrl : UrlParts) (method : String)
    (r : InterceptRule) (hen : s.enabled = true)
    (hfind : findMatchingRule test requestUrl.toUrl method s.rules = some r) :
    (handleRoute test fetchFn s requestUrl method).1 =
      { s with rules := bumpMatchCount s.rules r.id } := by
  unfold handleRoute
  rw [if_neg (by simp [hen]), hfind]
  dsimp only
  split
  · rfl
  · split
    · split <;> rfl
    · rfl

/-- C3 (amended): a rule's matchCount is incremented exactly when
interception is globally enabled and the rule is the winning match — the
increment is independent of the action that follows (abort, proxy, proxy
failure, or synthesized fulfill); while globally disabled, `handleRoute`
continues the request before any matching: no rule is evaluated and no
matchCount changes. -/
theorem matchCount_increment_only_when_enabled (test : String → String → Bool)
    (fetchFn : String → Except String UpstreamResponse)
    (s : InterceptState) (requestUrl : UrlParts) (method : String) :
    (s.enabled = false →
      handleRoute test fetchFn s requestUrl method =
        (s, RouteAction.continueRequest)) ∧
    (s.enabled = true →
      ∀ r, findMatchingRule test requestUrl.toUrl method s.rules = some r →
        (handleRoute test fetchFn s requestUrl method).1.rules =
          s.rules.map (fun x =>
            if x.id = r.id then { x with matchCount := x.matchCount + 1 }
            else x)) ∧
    (s.enabled = true →
      findMatchingRule test requestUrl.toUrl method s.rules = none →
      handleRoute test fetchFn s requestUrl method =
        (s, RouteAction.continueRequest)) := by
  refine ⟨handleRoute_disabled test fetchFn s requestUrl method, ?_, ?_⟩
  · intro hen r hfind
    rw [handleRoute_state_of_match test fetchFn s requestUrl method r hen hfind]
    rfl
  · intro hen hfind
    unfold handleRoute
    rw [if_neg (by simp [hen]), hfind]

/-- Witness: the disabled no-op and the enabled increment at a one-rule
engine. -/
theorem matchCount_increment_only_when_enabled_witness :
    handleRoute (fun _ _ => true) (fun _ => Except.error "down")
        { rules := [ruleA], enabled := false, nextId := 1 }
        { origin := "https://h", pathname := "/api/users", search := "" }
        "GET" =
      ({ rules := [ruleA], enabled := false, nextId := 1 },
        RouteAction.continueRequest) ∧
    (handleRoute (fun _ _ => true) (fun _ => Except.error "down")
        { rules := [ruleA], enabled := true, nextId := 1 }
        { origin := "https://h", pathname := "/api/users", search := "" }
        "GET").1.rules =
      [ruleA].map (fun x =>
        if x.id = ruleA.id then { x with matchCount := x.matchCount + 1 }
        else x) :=
  ⟨(matchCount_increment_only_when_enabled (fun _ _ => true)
      (fun _ => Except.error "down")
      { rules := [ruleA], enabled := false, nextId := 1 }
      { origin := "https://h", pathname := "/api/users", search := "" }
      "GET").1 rfl,
    (matchCount_increment_only_when_enabled (fun _ _ => true)
      (fun _ => Except.error "down")
      { rules := [ruleA], enabled := true, nextId := 1 }
      { origin := "https://h", pathname := "/api/users", search := "" }
      "GET").2.1 rfl ruleA rfl⟩

/-- Counterexample to C3 as stated: with interception globally disabled, a
request whose URL and method an enabled rule matches leaves that rule's
matchCount at 0 — `handleRoute` returns before any rule is evaluated, so no
count is incremented while disabled. -/
theorem matchCount_disabled_counterexample :
    ruleWins (fun _ _ => true)
      (UrlParts.toUrl { origin := "https://h", pathname := "/api/users", search := "" })
      "GET" ruleA = true ∧
    (handleRoute (fun _ _ => true) (fun _ => Except.error "down")
        { rules := [ruleA], enabled := false, nextId := 1 }
        { origin := "https://h", pathname := "/api/users", search := "" }
        "GET").1.rules.map (fun r => r.matchCount) = [0] := by
  decide

theorem addRule_eq_generated (s : InterceptState)
    (options : AddInterceptRuleOptions)
    (hg : (options.id.getD "" == "") = true) :
    addRule s options =
      (if s.rules.any (fun r => r.id == "rule-" ++ toString s.nextId) then
        ({ s with nextId := s.nextId + 1 },
          Except.error ("Rule with id " ++ ("rule-" ++ toString s.nextId) ++
            " already exists"))
      else
        ({ s with
            nextId := s.nextId + 1,
            rules := s.rules ++
              [{ id := "rule-" ++ toString s.nextId,
                 urlPattern := options.urlPattern, method := options.method,
                 response := options.response, delay := options.delay.getD 0,
                 enabled := options.enabled.getD true, matchCount := 0 }] },
          Except.ok
            { id := "rule-" ++ toString s.nextId,
              urlPattern := options.urlPattern, method := options.method,
              response := options.response, delay := options.delay.getD 0,
              enabled := options.enabled.getD true, matchCount := 0 })) := by
  unfold addRule
  simp only [hg, if_true]

theorem addRule_eq_supplied (s : InterceptState)
    (options : AddInterceptRuleOptions) (i : String)
    (hi : options.id = some i) (hne : i ≠ "") :
    addRule s options =
      (if s.rules.any (fun r => r.id == i) then
        (s, Except.error ("Rule with id " ++ i ++ " already exists"))
      else
        ({ s with rules := s.rules ++
            [{ id := i, urlPattern := options.urlPattern,
               method := options.method, response := options.response,
               delay := options.delay.getD 0,
               enabled := options.enabled.getD true, matchCount := 0 }] },
          Except.ok
            { id := i, urlPattern := options.urlPattern,
              method := options.method, response := options.response,
              delay := options.delay.getD 0,
              enabled := options.enabled.getD true, matchCount := 0 })) := by
  have hgi : (i == "") = false := by simp [hne]
  unfold addRule
  simp only [hi, Option.getD_some, hgi, Bool.false_eq_true, if_false]

/-- C7 (amended): adding a rule whose id collides with an existing one
throws, and the rule set — every existing rule, fields and matchCounts — is
untouched; when the id was caller-supplied (non-empty) the entire engine
state is exactly as before the call; but when the id was engine-generated
(`rule-<n>`, used when the caller id is absent or empty) the monotonic id
counter has already been incremented by the time the duplicate check
throws. -/
theorem addRule_duplicate_effects (s : InterceptState)
    (options : AddInterceptRuleOptions) (msg : String)
    (herr : (addRule s options).2 = Except.error msg) :
    (addRule s options).1.rules = s.rules ∧
    (∀ i, options.id = some i → i ≠ "" → (addRule s options).1 = s) ∧
    ((options.id = none ∨ options.id = some "") →
      (addRule s options).1.nextId = s.nextId + 1 ∧
      (addRule s options).1.enabled = s.enabled) := by
  by_cases hg : (options.id.getD "" == "") = true
  · rw [addRule_eq_generated s options hg] at herr ⊢
    by_cases hany :
        (s.rules.any (fun r => r.id == "rule-" ++ toString s.nextId)) = true
    · rw [if_pos hany]
      refine ⟨rfl, ?_, fun _ => ⟨rfl, rfl⟩⟩
      intro i hi hne
      exfalso
      rw [hi] at hg
      simp at hg
      exact hne hg
    · rw [Bool.not_eq_true] at hany
      rw [if_neg (by rw [hany]; simp)] at herr
      simp at herr
  · have hex : ∃ i, options.id = some i ∧ i ≠ "" := by
      cases ho : options.id with
      | none => rw [ho] at hg; simp at hg
      | some i =>
          refine ⟨i, rfl, ?_⟩
          intro hc
          rw [ho, hc] at hg
          simp at hg
    obtain ⟨i, hi, hne⟩ := hex
    rw [addRule_eq_supplied s options i hi hne] at herr ⊢
    by_cases hany : (s.rules.any (fun r => r.id == i)) = true
    · rw [if_pos hany]
      refine ⟨rfl, fun j _ _ => rfl, ?_⟩
      intro hcase
      exfalso
      rcases hcase with h | h
      · rw [h] at hi; cases hi
      · rw [h] at hi
        injection hi with hi'
        exact hne hi'.symm
    · rw [Bool.not_eq_true] at hany
      rw [if_neg (by rw [hany]; simp)] at herr
      simp at herr

/-- Witness: a caller-supplied duplicate id leaves the engine state exactly
as it was. -/
theorem addRule_duplicate_effects_witness :
    (addRule (addRule initialIntercept
        { id := some "r1", urlPattern := ".*", response := {} }).1
      { id := some "r1", urlPattern := ".*", response := {} }).1.rules =
      (addRule initialIntercept
        { id := some "r1", urlPattern := ".*", response := {} }).1.rules ∧
    (∀ i, ({ id := some "r1", urlPattern := ".*", response := {} } :
        AddInterceptRuleOptions).id = some i → i ≠ "" →
      (addRule (addRule initialIntercept
          { id := some "r1", urlPattern := ".*", response := {} }).1
        { id := some "r1", urlPattern := ".*", response := {} }).1 =
        (addRule initialIntercept
          { id := some "r1", urlPattern := ".*", response := {} }).1) ∧
    ((({ id := some "r1", urlPattern := ".*", response := {} } :
        AddInterceptRuleOptions).id = none ∨
      ({ id := some "r1", urlPattern := ".*", response := {} } :
        AddInterceptRuleOptions).id = some "") →
      (addRule (addRule initialIntercept
          { id := some "r1", urlPattern := ".*", response := {} }).1
        { id := some "r1", urlPattern := ".*", response := {} }).1.nextId =
        (addRule initialIntercept
          { id := some "r1", urlPattern := ".*", response := {} }).1.nextId + 1 ∧
      (addRule (addRule initialIntercept
          { id := some "r1", urlPattern := ".*", response := {} }).1
        { id := some "r1", urlPattern := ".*", response := {} }).1.enabled =
        (addRule initialIntercept
          { id := some "r1", urlPattern := ".*", response := {} }).1.enabled) :=
  addRule_duplicate_effects _ _ "Rule with id r1 already exists" rfl

/-- Counterexample to C7 as stated: add a rule with explicit id `rule-1`,
then call `addRule` without an id.  The generated id `rule-1` collides and
the call throws — but the id counter was incremented from 1 to 2 before the
duplicate check, so the engine state is mutated by the failing call. -/
theorem addRule_generated_collision_counterexample :
    (addRule (addRule initialIntercept
        { id := some "rule-1", urlPattern := ".*", response := {} }).1
      { id := none, urlPattern := ".*", response := {} }).2 =
      Except.error "Rule with id rule-1 already exists" ∧
    (addRule initialIntercept
        { id := some "rule-1", urlPattern := ".*", response := {} }).1.nextId = 1 ∧
    (addRule (addRule initialIntercept
        { id := some "rule-1", urlPattern := ".*", response := {} }).1
      { id := none, urlPattern := ".*", response := {} }).1.nextId = 2 :=
  ⟨rfl, rfl, rfl⟩

/-- C8: for a request matched by a proxy rule, the upstream fetch goes to
the configured proxy base concatenated with the original request's path and
query string; on success the request is fulfilled with the upstream body,
the hop-by-hop headers (`content-encoding`, `transfer-encoding`,
`connection`) stripped from the upstream headers, the rule's headers merged
on top (the last rule binding for a key wins over the upstream value), and
the rule's status when set, else the upstream status; on fetch failure the
request is fulfilled with a synthesized 500 whose body carries the error
text — the failure never escapes the route handler. -/
theorem proxy_branch_behavior (test : String → String → Bool)
    (fetchFn : String → Except String UpstreamResponse)
    (s : InterceptState) (requestUrl : UrlParts) (method : String)
    (rule : InterceptRule) (base : String)
    (hen : s.enabled = true)
    (hfind : findMatchingRule test requestUrl.toUrl method s.rules = some rule)
    (habort : rule.response.abort.getD false = false)
    (hproxy : rule.response.proxyUrl = some base)
    (hbase : base ≠ "") :
    (handleRoute test fetchFn s requestUrl method).2 =
      (match fetchFn (base ++ requestUrl.pathname ++ requestUrl.search) with
        | Except.ok up =>
            RouteAction.fulfill (rule.response.status.getD up.status)
              (mergeHeaders (buildProxyHeaders up.headers)
                (rule.response.headers.getD []))
              up.body
        | Except.error e =>
            RouteAction.fulfill 500 [] ("Proxy error: " ++ e)) ∧
    (∀ (hs : List (String × String)) (k : String),
      k.toLower ∈ hopByHopHeaders → jsMapGet (buildProxyHeaders hs) k = none) ∧
    (∀ (b e : List (String × String)) (k v : String),
      lastLookup e k = some v → jsMapGet (mergeHeaders b e) k = some v) ∧
    (∀ (b e : List (String × String)) (k : String),
      lastLookup e k = none → jsMapGet (mergeHeaders b e) k = jsMapGet b k) := by
  refine ⟨?_, fun hs k hk => jsMapGet_buildProxyHeaders_hop hs k hk, ?_, ?_⟩
  · unfold handleRoute
    rw [if_neg (by simp [hen]), hfind]
    dsimp only
    have hbb : (base == "") = false := by simp [hbase]
    simp only [habort, Bool.false_eq_true, if_false, hproxy, Option.getD_some,
      hbb, Bool.not_false, if_true]
    cases hf : fetchFn (base ++ requestUrl.pathname ++ requestUrl.search) with
    | ok up => rfl
    | error e => rfl
  · intro b e k v h
    rw [jsMapGet_mergeHeaders, h]
  · intro b e k h
    rw [jsMapGet_mergeHeaders, h]

/-- Rule of the concrete proxy witness. -/
def ruleP : InterceptRule :=
  { id := "p", urlPattern := ".*", method := none,
    response := { proxyUrl := some "http://localhost:9000" }, delay := 0,
    enabled := true, matchCount := 0 }

/-- Witness: the proxy behavior at a concrete engine, request and upstream
response. -/
theorem proxy_branch_behavior_witness :
    (handleRoute (fun _ _ => true)
        (fun _ => (Except.ok
          { status := 201,
            headers := [("content-encoding", "gzip"), ("x-a", "1")],
            body := "hello" } : Except String UpstreamResponse))
        { rules := [ruleP], enabled := true, nextId := 1 }
        { origin := "https://example.com", pathname := "/api/u", search := "?q=1" }
        "GET").2 =
      (match (fun (_ : String) => (Except.ok
            { status := 201,
              headers := [("content-encoding", "gzip"), ("x-a", "1")],
              body := "hello" } : Except String UpstreamResponse))
          ("http://localhost:9000" ++ "/api/u" ++ "?q=1") with
        | Except.ok up =>
            RouteAction.fulfill (ruleP.response.status.getD up.status)
              (mergeHeaders (buildProxyHeaders up.headers)
                (ruleP.response.headers.getD []))
              up.body
        | Except.error e =>
            RouteAction.fulfill 500 [] ("Proxy error: " ++ e)) ∧
    (∀ (hs : List (String × String)) (k : String),
      k.toLower ∈ hopByHopHeaders → jsMapGet (buildProxyHeaders hs) k = none) ∧
    (∀ (b e : List (String × String)) (k v : String),
      lastLookup e k = some v → jsMapGet (mergeHeaders b e) k = some v) ∧
    (∀ (b e : List (String × String)) (k : String),
      lastLookup e k = none → jsMapGet (mergeHeaders b e) k = jsMapGet b k) :=
  proxy_branch_behavior (fun _ _ => true)
    (fun _ => (Except.ok
      { status := 201,
        headers := [("content-encoding", "gzip"), ("x-a", "1")],
        body := "hello" } : Except String UpstreamResponse))
    { rules := [ruleP], enabled := true, nextId := 1 }
    { origin := "https://example.com", pathname := "/api/u", search := "?q=1" }
    "GET" ruleP "http://localhost:9000" rfl rfl rfl rfl (by decide)
